import Mathlib

/-!
Shallow embedding of the netlink management layer of `socketcan-rs`
(`src/nl.rs`).

The code under verification builds and parses netlink messages for CAN
interface management.  The netlink transport itself (`neli`'s
`NlSocketHandle`), the OS name-to-index resolution (`if_nametoindex`) and
the process-identity lookup are external collaborators: they are modelled
as explicit oracle parameters, so that the pure message-construction and
reply-interpretation logic of `nl.rs` can be stated and proved exactly.

Machine integers (`u32`, bytes) are modelled as `Nat` with explicit
`% 2 ^ 32` where the source could overflow.
-/

namespace SocketCan

/-- Model of `neli::err::NlError` (the variants this crate constructs or
observes): `Msg` for string errors, `Nlmsgerr` for a kernel netlink-level
error reply (carrying the error code), `NoAck` for the missing-ack
condition, and a catch-all for the remaining transport variants. -/
inductive NlError where
  | Msg (s : String)
  | Nlmsgerr (code : Int)
  | NoAck
  | OtherTransport (tag : Nat)
deriving DecidableEq, Repr

/-- Model of `std::io::ErrorKind` restricted to the kinds `nl.rs` creates. -/
inductive IoErrorKind where
  | InvalidData
deriving DecidableEq, Repr

/-- `Mtu` from `nl.rs`: the closed two-value MTU enumeration.
`Standard = 16`, `Fd = 72` are the `repr(u32)` discriminants. -/
inductive Mtu where
  | Standard
  | Fd
deriving DecidableEq, Repr

/-- The `repr(u32)` value of an `Mtu` variant (`mtu as u32` in Rust). -/
def Mtu.toU32 : Mtu → Nat
  | .Standard => 16
  | .Fd => 72

/-- `impl TryFrom<u32> for Mtu` from `nl.rs`:
`16 => Standard`, `72 => Fd`, anything else is an `InvalidData` error. -/
def Mtu.tryFrom (val : Nat) : Except IoErrorKind Mtu :=
  if val = 16 then .ok .Standard
  else if val = 72 then .ok .Fd
  else .error .InvalidData

/-- C4: decoding a `u32` into `Mtu` maps 16 to `Standard` and 72 to `Fd`;
every other value is an `InvalidData` error (no silent default), and
encode-then-decode is the identity on both variants. -/
theorem mtu_round_trip (v : Nat) (h16 : v ≠ 16) (h72 : v ≠ 72) :
    Mtu.tryFrom 16 = .ok .Standard ∧
    Mtu.tryFrom 72 = .ok .Fd ∧
    Mtu.tryFrom v = .error .InvalidData ∧
    (∀ m : Mtu, Mtu.tryFrom m.toU32 = .ok m) := by
  refine ⟨rfl, rfl, ?_, ?_⟩
  · simp [Mtu.tryFrom, h16, h72]
  · intro m; cases m <;> rfl

/-- Witness for `mtu_round_trip` at the concrete value 100. -/
theorem mtu_round_trip_witness :
    Mtu.tryFrom 16 = .ok .Standard ∧
    Mtu.tryFrom 72 = .ok .Fd ∧
    Mtu.tryFrom 100 = .error .InvalidData ∧
    (∀ m : Mtu, Mtu.tryFrom m.toU32 = .ok m) :=
  mtu_round_trip 100 (by decide) (by decide)

/-- `rt::can_ctrlmode` from `nl.rs`: two `u32` fields, `mask` marking the
bits being set and `flags` carrying the desired values. -/
structure can_ctrlmode where
  mask : Nat
  flags : Nat
deriving DecidableEq, Repr

/-- `#[derive(Default)]` for `rt::can_ctrlmode`: both fields zero. -/
def can_ctrlmode.default : can_ctrlmode := ⟨0, 0⟩

/-- `CanCtrlMode` from `nl.rs`: the nine symbolic control modes.  The
declaration order fixes the `repr(u32)` discriminants 0..8, which are the
bit numbers of the control-mode bits. -/
inductive CanCtrlMode where
  | Loopback
  | ListenOnly
  | TripleSampling
  | OneShot
  | BerrReporting
  | Fd
  | PresumeAck
  | NonIso
  | CcLen8Dlc
deriving DecidableEq, Repr

/-- The `repr(u32)` discriminant of a `CanCtrlMode` (`*self as u32`). -/
def CanCtrlMode.toOrdinal : CanCtrlMode → Nat
  | .Loopback => 0
  | .ListenOnly => 1
  | .TripleSampling => 2
  | .OneShot => 3
  | .BerrReporting => 4
  | .Fd => 5
  | .PresumeAck => 6
  | .NonIso => 7
  | .CcLen8Dlc => 8

/-- `CanCtrlMode::mask` from `nl.rs`: `1u32 << (*self as u32)`, kept in
the `u32` range. -/
def CanCtrlMode.mask (m : CanCtrlMode) : Nat :=
  (1 <<< m.toOrdinal) % 2 ^ 32

/-- `CanCtrlModes` from `nl.rs`: a newtype around `rt::can_ctrlmode`. -/
structure CanCtrlModes where
  val : can_ctrlmode
deriving DecidableEq, Repr

/-- `CanCtrlModes::new` from `nl.rs`. -/
def CanCtrlModes.new (mask flags : Nat) : CanCtrlModes :=
  ⟨{ mask := mask, flags := flags }⟩

/-- `#[derive(Default)]` for `CanCtrlModes`: wraps the zero pair. -/
def CanCtrlModes.default : CanCtrlModes := ⟨can_ctrlmode.default⟩

/-- `CanCtrlModes::from_mode` from `nl.rs`. -/
def CanCtrlModes.from_mode (mode : CanCtrlMode) (onb : Bool) : CanCtrlModes :=
  let mask := mode.mask
  let flags := if onb then mask else 0
  CanCtrlModes.new mask flags

/-- `CanCtrlModes::add` from `nl.rs` (the `&mut self` update, modelled as
returning the updated value): OR the mode's bit into `mask` always, into
`flags` only when enabling. -/
def CanCtrlModes.add (c : CanCtrlModes) (mode : CanCtrlMode) (onb : Bool) :
    CanCtrlModes :=
  let mask := mode.mask
  ⟨{ mask := c.val.mask ||| mask,
     flags := if onb then c.val.flags ||| mask else c.val.flags }⟩

/-- `CanCtrlModes::clear` from `nl.rs`: reset to the default pair. -/
def CanCtrlModes.clear (_c : CanCtrlModes) : CanCtrlModes :=
  ⟨can_ctrlmode.default⟩

/-- Accumulating a whole sequence of `(mode, on/off)` pairs with
`CanCtrlModes::add`, first pair first. -/
def CanCtrlModes.applyAll (c : CanCtrlModes) (l : List (CanCtrlMode × Bool)) :
    CanCtrlModes :=
  l.foldl (fun acc p => acc.add p.1 p.2) c

/-- The bitwise OR of the single-bit masks of every entry of `l`. -/
def orMasks (l : List (CanCtrlMode × Bool)) : Nat :=
  l.foldr (fun p acc => p.1.mask ||| acc) 0

/-- The bitwise OR of the single-bit masks of the entries applied with
the boolean set. -/
def orOnMasks (l : List (CanCtrlMode × Bool)) : Nat :=
  l.foldr (fun p acc => (if p.2 then p.1.mask else 0) ||| acc) 0

theorem orMasks_cons (p : CanCtrlMode × Bool) (t : List (CanCtrlMode × Bool)) :
    orMasks (p :: t) = p.1.mask ||| orMasks t := rfl

theorem orOnMasks_cons (p : CanCtrlMode × Bool)
    (t : List (CanCtrlMode × Bool)) :
    orOnMasks (p :: t) = (if p.2 then p.1.mask else 0) ||| orOnMasks t := rfl

theorem CanCtrlMode.mask_eq_two_pow (m : CanCtrlMode) :
    m.mask = 2 ^ m.toOrdinal := by
  cases m <;> decide

theorem CanCtrlModes.add_eq (c : CanCtrlModes) (m : CanCtrlMode) (onb : Bool) :
    c.add m onb =
      ⟨{ mask := c.val.mask ||| m.mask,
         flags := c.val.flags ||| (if onb then m.mask else 0) }⟩ := by
  cases onb <;> simp [CanCtrlModes.add]

theorem CanCtrlModes.applyAll_eq (l : List (CanCtrlMode × Bool)) :
    ∀ c : CanCtrlModes,
      c.applyAll l =
        ⟨{ mask := c.val.mask ||| orMasks l,
           flags := c.val.flags ||| orOnMasks l }⟩ := by
  induction l with
  | nil =>
    intro c
    simp [CanCtrlModes.applyAll, orMasks, orOnMasks]
  | cons p t ih =>
    intro c
    rw [show c.applyAll (p :: t) = (c.add p.1 p.2).applyAll t from rfl, ih,
      CanCtrlModes.add_eq, orMasks_cons, orOnMasks_cons]
    simp [Nat.or_assoc]

theorem testBit_orMasks (l : List (CanCtrlMode × Bool)) (b : Nat) :
    (orMasks l).testBit b = true ↔ ∃ p ∈ l, p.1.toOrdinal = b := by
  induction l with
  | nil => simp [orMasks]
  | cons p t ih =>
    rw [orMasks_cons, Nat.testBit_or, Bool.or_eq_true,
      CanCtrlMode.mask_eq_two_pow, Nat.testBit_two_pow, ih]
    simp only [decide_eq_true_eq, List.mem_cons]
    constructor
    · rintro (h | ⟨q, hq, hb⟩)
      · exact ⟨p, Or.inl rfl, h⟩
      · exact ⟨q, Or.inr hq, hb⟩
    · rintro ⟨q, (rfl | hq), hb⟩
      · exact Or.inl hb
      · exact Or.inr ⟨q, hq, hb⟩

theorem orOnMasks_cons_false (m : CanCtrlMode) (t : List (CanCtrlMode × Bool)) :
    orOnMasks ((m, false) :: t) = orOnMasks t := by
  simp [orOnMasks]

theorem orOnMasks_cons_true (m : CanCtrlMode) (t : List (CanCtrlMode × Bool)) :
    orOnMasks ((m, true) :: t) = m.mask ||| orOnMasks t := by
  simp [orOnMasks]

theorem testBit_orOnMasks (l : List (CanCtrlMode × Bool)) (b : Nat) :
    (orOnMasks l).testBit b = true ↔ ∃ m, (m, true) ∈ l ∧ m.toOrdinal = b := by
  induction l with
  | nil => simp [orOnMasks]
  | cons p t ih =>
    obtain ⟨pm, pon⟩ := p
    cases pon
    · rw [orOnMasks_cons_false, ih]
      constructor
      · rintro ⟨m, hm, hb⟩
        exact ⟨m, List.mem_cons_of_mem _ hm, hb⟩
      · rintro ⟨m, hm, hb⟩
        rcases List.mem_cons.mp hm with heq | hm
        · exact absurd heq (by simp)
        · exact ⟨m, hm, hb⟩
    · rw [orOnMasks_cons_true, Nat.testBit_or, Bool.or_eq_true,
        CanCtrlMode.mask_eq_two_pow, Nat.testBit_two_pow, ih]
      simp only [decide_eq_true_eq, List.mem_cons]
      constructor
      · rintro (h | ⟨m, hm, hb⟩)
        · exact ⟨pm, Or.inl rfl, h⟩
        · exact ⟨m, Or.inr hm, hb⟩
      · rintro ⟨m, (hm | hm), hb⟩
        · injection hm with h1 h2
          subst h1
          exact Or.inl hb
        · exact Or.inr ⟨m, hm, hb⟩

theorem orMasks_perm {l l' : List (CanCtrlMode × Bool)} (hp : l.Perm l') :
    orMasks l = orMasks l' := by
  refine Nat.eq_of_testBit_eq fun b => ?_
  rw [Bool.eq_iff_iff, testBit_orMasks, testBit_orMasks]
  constructor <;> rintro ⟨p, hm, hb⟩
  · exact ⟨p, hp.mem_iff.mp hm, hb⟩
  · exact ⟨p, hp.mem_iff.mpr hm, hb⟩

theorem orOnMasks_perm {l l' : List (CanCtrlMode × Bool)} (hp : l.Perm l') :
    orOnMasks l = orOnMasks l' := by
  refine Nat.eq_of_testBit_eq fun b => ?_
  rw [Bool.eq_iff_iff, testBit_orOnMasks, testBit_orOnMasks]
  constructor <;> rintro ⟨m, hm, hb⟩
  · exact ⟨m, hp.mem_iff.mp hm, hb⟩
  · exact ⟨m, hp.mem_iff.mpr hm, hb⟩

/-- C1: accumulating any sequence of `(mode, on/off)` pairs with
`CanCtrlModes::add` onto the fresh zero/zero pair yields `mask` equal to
the bitwise OR of every entry's single-bit mask (independently of the
on/off values), yields `flags` with exactly those bits set whose mode was
applied at least once with the boolean true, and the final pair is
invariant under reordering of the sequence. -/
theorem ctrlmodes_accumulation (l l' : List (CanCtrlMode × Bool))
    (hp : l.Perm l') :
    (CanCtrlModes.default.applyAll l).val.mask = orMasks l ∧
    (∀ b : Nat,
      ((CanCtrlModes.default.applyAll l).val.flags).testBit b = true ↔
        ∃ m, (m, true) ∈ l ∧ m.toOrdinal = b) ∧
    CanCtrlModes.default.applyAll l = CanCtrlModes.default.applyAll l' := by
  have e := CanCtrlModes.applyAll_eq l CanCtrlModes.default
  have e' := CanCtrlModes.applyAll_eq l' CanCtrlModes.default
  refine ⟨?_, ?_, ?_⟩
  · rw [e]
    exact Nat.zero_or _
  · intro b
    rw [e]
    show ((0 : Nat) ||| orOnMasks l).testBit b = true ↔ _
    rw [Nat.zero_or]
    exact testBit_orOnMasks l b
  · rw [e, e', orMasks_perm hp, orOnMasks_perm hp]

/-- Witness for `ctrlmodes_accumulation` on the concrete sequence
`[(Loopback, true), (Fd, false)]` and its reversal. -/
theorem ctrlmodes_accumulation_witness :
    (CanCtrlModes.default.applyAll
        [(CanCtrlMode.Loopback, true), (CanCtrlMode.Fd, false)]).val.mask =
      orMasks [(CanCtrlMode.Loopback, true), (CanCtrlMode.Fd, false)] ∧
    CanCtrlModes.default.applyAll
        [(CanCtrlMode.Loopback, true), (CanCtrlMode.Fd, false)] =
      CanCtrlModes.default.applyAll
        [(CanCtrlMode.Fd, false), (CanCtrlMode.Loopback, true)] := by
  have h := ctrlmodes_accumulation
    [(CanCtrlMode.Loopback, true), (CanCtrlMode.Fd, false)]
    [(CanCtrlMode.Fd, false), (CanCtrlMode.Loopback, true)]
    (List.Perm.swap _ _ _)
  exact ⟨h.1, h.2.2⟩

/-- C9: `CanCtrlModes::from_mode` coincides with accumulating the single
`(mode, on)` pair onto the zeroed pair (either `default` or the result of
`clear`); its `mask` is the single bit `2 ^ ordinal`, and `flags` has that
same bit set iff the boolean is true. -/
theorem from_mode_refines_add (m : CanCtrlMode) (onb : Bool)
    (c : CanCtrlModes) :
    CanCtrlModes.from_mode m onb = CanCtrlModes.default.add m onb ∧
    CanCtrlModes.from_mode m onb = (c.clear).add m onb ∧
    (CanCtrlModes.from_mode m onb).val.mask = 2 ^ m.toOrdinal ∧
    (∀ b : Nat,
      ((CanCtrlModes.from_mode m onb).val.flags).testBit b =
        (onb && decide (m.toOrdinal = b))) := by
  refine ⟨?_, ?_, ?_, ?_⟩
  · cases onb <;>
      simp [CanCtrlModes.from_mode, CanCtrlModes.add, CanCtrlModes.new,
        CanCtrlModes.default, can_ctrlmode.default]
  · cases onb <;>
      simp [CanCtrlModes.from_mode, CanCtrlModes.add, CanCtrlModes.new,
        CanCtrlModes.clear, CanCtrlModes.default, can_ctrlmode.default]
  · simpa [CanCtrlModes.from_mode, CanCtrlModes.new] using
      CanCtrlMode.mask_eq_two_pow m
  · intro b
    cases onb
    · simp [CanCtrlModes.from_mode, CanCtrlModes.new]
    · simp [CanCtrlModes.from_mode, CanCtrlModes.new,
        CanCtrlMode.mask_eq_two_pow, Nat.testBit_two_pow]

/-- `Rtm` message types used by `nl.rs`. -/
inductive Rtm where
  | Newlink
  | Dellink
  | Getlink
deriving DecidableEq, Repr

/-- Netlink header flags used by `nl.rs` (`NlmF`). -/
inductive NlmF where
  | Request
  | Ack
  | Create
  | Excl
deriving DecidableEq, Repr

/-- Interface flag bits (`Iff`); only `Up` is inspected by `nl.rs`. -/
inductive IffFlag where
  | Up
  | Other (code : Nat)
deriving DecidableEq, Repr

/-- Attribute type code `Ifla::Ifname`. -/
def IFLA_IFNAME : Nat := 3
/-- Attribute type code `Ifla::Mtu`. -/
def IFLA_MTU : Nat := 4
/-- Attribute type code `Ifla::Linkinfo`. -/
def IFLA_LINKINFO : Nat := 18
/-- Attribute type code `Ifla::ExtMask`. -/
def IFLA_EXT_MASK : Nat := 29
/-- Attribute type code `IflaInfo::Kind`. -/
def IFLA_INFO_KIND : Nat := 1
/-- Attribute type code `IflaInfo::Data`. -/
def IFLA_INFO_DATA : Nat := 2

/-- A request-side netlink route attribute (`Rtattr`), as a tree: a string
payload, a raw byte payload, or a nested attribute list. -/
inductive ReqAttr where
  | str (ty : Nat) (s : String)
  | bytes (ty : Nat) (payload : List Nat)
  | nested (ty : Nat) (children : List ReqAttr)

/-- `Ifinfomsg`: the link-info message header built by `nl.rs`.  Family
and hardware-type are numeric codes (`RtAddrFamily::Unspecified = 0`,
`Arphrd::Netrom = 0`). -/
structure Ifinfomsg where
  ifi_family : Nat
  ifi_type : Nat
  ifi_index : Int
  ifi_flags : List IffFlag
  ifi_change : List IffFlag
  rtattrs : List ReqAttr

/-- `CanInterface` from `nl.rs`: a handle holding only the interface
index. -/
structure CanInterface where
  if_index : Nat
deriving DecidableEq, Repr

/-- `CanInterface::open_iface` from `nl.rs`: wrap the index, no checks. -/
def CanInterface.open_iface (if_index : Nat) : CanInterface :=
  ⟨if_index⟩

/-- The payload of a received `Nlmsghdr` as classified by `neli`:
an explicit acknowledgement, a data payload, or an empty payload.
(A netlink-level error reply never reaches this classification: `neli`'s
`recv` turns it into an `Err` return — see the comment in
`send_and_read_ack` in `nl.rs`.) -/
inductive NlPayloadKind where
  | ack
  | payload
  | empty
deriving DecidableEq, Repr

/-- Outcome of `NlSocketHandle::recv` as observed by `nl.rs`:
a transport/protocol error (including a netlink-level error reply),
no message, or a message with the given payload kind. -/
inductive RecvOutcome where
  | fail (e : NlError)
  | noneMsg
  | someMsg (p : NlPayloadKind)
deriving DecidableEq, Repr

/-- `CanInterface::send_and_read_ack` from `nl.rs`, with the socket's send
and receive behaviour supplied as oracle values: `sendRes` is the error of
`sock.send` if it failed, `recvRes` the outcome of `sock.recv`.  Success
exactly when the received message's payload is an acknowledgement;
otherwise `NoAck`, with send/recv errors propagated by `?`. -/
def send_and_read_ack (sendRes : Option NlError) (recvRes : RecvOutcome) :
    Except NlError Unit :=
  match sendRes with
  | some e => .error e
  | none =>
    match recvRes with
    | .fail e => .error e
    | .someMsg .ack => .ok ()
    | .noneMsg => .error .NoAck
    | .someMsg .payload => .error .NoAck
    | .someMsg .empty => .error .NoAck

/-- C2: `send_and_read_ack` succeeds iff the single received reply is an
explicit acknowledgement; a netlink-level error reply (surfaced by the
transport as `Nlmsgerr`) propagates unchanged, while no reply or a
non-ack, non-error reply yields the distinct `NoAck` error, and the two
failure kinds are never conflated (`Nlmsgerr ≠ NoAck`). -/
theorem ack_discrimination (sendRes : Option NlError) (recvRes : RecvOutcome) :
    (send_and_read_ack sendRes recvRes = .ok () ↔
      sendRes = none ∧ recvRes = .someMsg .ack) ∧
    (∀ c : Int,
      send_and_read_ack none (.fail (.Nlmsgerr c)) = .error (.Nlmsgerr c) ∧
      NlError.Nlmsgerr c ≠ NlError.NoAck) ∧
    send_and_read_ack none .noneMsg = .error .NoAck ∧
    send_and_read_ack none (.someMsg .payload) = .error .NoAck ∧
    send_and_read_ack none (.someMsg .empty) = .error .NoAck := by
  refine ⟨?_, fun c => ⟨rfl, by simp⟩, rfl, rfl, rfl⟩
  constructor
  · intro h
    cases sendRes with
    | some e => simp [send_and_read_ack] at h
    | none =>
      cases recvRes with
      | fail e => simp [send_and_read_ack] at h
      | noneMsg => simp [send_and_read_ack] at h
      | someMsg p =>
        cases p with
        | ack => exact ⟨rfl, rfl⟩
        | payload => simp [send_and_read_ack] at h
        | empty => simp [send_and_read_ack] at h
  · rintro ⟨rfl, rfl⟩
    rfl

/-- `libc::IFNAMSIZ` on Linux. -/
def IFNAMSIZ : Nat := 16

/-- The `Ifinfomsg` built by `CanInterface::create`: index 0 when no
explicit index is given, a name attribute, and a link-info attribute
nesting the driver kind. -/
def createMsg (name : String) (index : Option Nat) (kind : String) :
    Ifinfomsg :=
  { ifi_family := 0
    ifi_type := 0
    ifi_index := (index.getD 0 : Nat)
    ifi_flags := []
    ifi_change := []
    rtattrs := [ .str IFLA_IFNAME name,
                 .nested IFLA_LINKINFO [.str IFLA_INFO_KIND kind] ] }

/-- `CanInterface::create` from `nl.rs`.  `send` is the oracle for
`send_info_msg` (message type, message, additional flags), `resolve` the
oracle for `if_nametoindex`.  The name-length check precedes everything;
after an acknowledged creation with no explicit index the name is
resolved, and a failed resolution is an error. -/
def create (name : String) (index : Option Nat) (kind : String)
    (send : Rtm → Ifinfomsg → List NlmF → Except NlError Unit)
    (resolve : String → Option Nat) : Except NlError CanInterface :=
  if name.utf8ByteSize > IFNAMSIZ then
    .error (.Msg "Interface name too long")
  else
    match send .Newlink (createMsg name index kind) [.Create, .Excl] with
    | .error e => .error e
    | .ok _ =>
      match index with
      | some i => .ok ⟨i⟩
      | none =>
        match resolve name with
        | some i => .ok ⟨i⟩
        | none =>
          .error (.Msg
            "Interface must have been deleted between request and this if_nametoindex")

/-- C5: a name longer than `IFNAMSIZ` makes `create` return the
"Interface name too long" validation error, and the result is the same
for every transport and resolver oracle — no socket is opened and no
network I/O occurs. -/
theorem name_length_validation (name : String)
    (h : name.utf8ByteSize > IFNAMSIZ) (index : Option Nat) (kind : String)
    (send send' : Rtm → Ifinfomsg → List NlmF → Except NlError Unit)
    (resolve resolve' : String → Option Nat) :
    create name index kind send resolve = .error (.Msg "Interface name too long") ∧
    create name index kind send resolve = create name index kind send' resolve' := by
  constructor <;> simp [create, h]

/-- Witness for `name_length_validation`: a 17-byte name, one oracle pair
that would succeed and one that would fail. -/
theorem name_length_validation_witness :
    create "aaaaaaaaaaaaaaaaa" none "vcan" (fun _ _ _ => .ok ())
        (fun _ => some 5) =
      .error (.Msg "Interface name too long") ∧
    create "aaaaaaaaaaaaaaaaa" none "vcan" (fun _ _ _ => .ok ())
        (fun _ => some 5) =
      create "aaaaaaaaaaaaaaaaa" none "vcan"
        (fun _ _ _ => .error (.Msg "boom")) (fun _ => none) :=
  name_length_validation "aaaaaaaaaaaaaaaaa" (by decide) none "vcan"
    (fun _ _ _ => .ok ()) (fun _ _ _ => .error (.Msg "boom"))
    (fun _ => some 5) (fun _ => none)

/-- C10: after an acknowledged creation without an explicit index, the
name is resolved a second time: a failed resolution yields an error even
though the kernel acknowledged the creation, and a successful resolution
yields that index; with an explicit index the handle carries exactly that
index and the resolver is never consulted. -/
theorem create_index_resolution (name kind : String) (i : Nat)
    (send : Rtm → Ifinfomsg → List NlmF → Except NlError Unit)
    (resolve : String → Option Nat)
    (hlen : ¬ name.utf8ByteSize > IFNAMSIZ)
    (hsendN : send .Newlink (createMsg name none kind) [.Create, .Excl] = .ok ())
    (hsendS : send .Newlink (createMsg name (some i) kind) [.Create, .Excl] = .ok ()) :
    (resolve name = none →
      create name none kind send resolve =
        .error (.Msg
          "Interface must have been deleted between request and this if_nametoindex")) ∧
    (∀ j, resolve name = some j →
      create name none kind send resolve = .ok ⟨j⟩) ∧
    (∀ resolve' : String → Option Nat,
      create name (some i) kind send resolve' = .ok ⟨i⟩) := by
  refine ⟨fun hr => ?_, fun j hr => ?_, fun resolve' => ?_⟩
  · simp [create, hlen, hsendN, hr]
  · simp [create, hlen, hsendN, hr]
  · simp [create, hlen, hsendS]

/-- Witness for `create_index_resolution` at name `"vcan0"`, index 7,
with concrete transport and resolver oracles. -/
theorem create_index_resolution_witness :
    create "vcan0" none "vcan" (fun _ _ _ => .ok ()) (fun _ => none) =
      .error (.Msg
        "Interface must have been deleted between request and this if_nametoindex") ∧
    create "vcan0" (some 7) "vcan" (fun _ _ _ => .ok ()) (fun _ => none) =
      .ok ⟨7⟩ := by
  have h := create_index_resolution "vcan0" "vcan" 7 (fun _ _ _ => .ok ())
    (fun _ => none) (by decide) rfl rfl
  exact ⟨h.1 rfl, h.2.2 (fun _ => none)⟩

/-- The (attribute-free) `Ifinfomsg` built by `CanInterface::delete`. -/
def deleteMsg (iface : CanInterface) : Ifinfomsg :=
  { ifi_family := 0
    ifi_type := 0
    ifi_index := (iface.if_index : Nat)
    ifi_flags := []
    ifi_change := []
    rtattrs := [] }

/-- `CanInterface::delete` from `nl.rs`: consume the handle; on a failed
send return both the handle and the error. -/
def delete (iface : CanInterface)
    (send : Rtm → Ifinfomsg → List NlmF → Except NlError Unit) :
    Except (CanInterface × NlError) Unit :=
  match send .Dellink (deleteMsg iface) [] with
  | .ok _ => .ok ()
  | .error e => .error (iface, e)

/-- C6: when the transport rejects the delete request, `delete` returns
the original handle together with the error and the handle's index is
unchanged; when the transport acknowledges, `delete` returns plain
success. -/
theorem delete_returns_handle (iface : CanInterface) (e : NlError)
    (send_f send_s : Rtm → Ifinfomsg → List NlmF → Except NlError Unit)
    (hfail : send_f .Dellink (deleteMsg iface) [] = .error e)
    (hok : send_s .Dellink (deleteMsg iface) [] = .ok ()) :
    delete iface send_f = .error (iface, e) ∧
    ((iface, e).1).if_index = iface.if_index ∧
    delete iface send_s = .ok () := by
  refine ⟨?_, rfl, ?_⟩
  · simp [delete, hfail]
  · simp [delete, hok]

/-- Witness for `delete_returns_handle` at index 3 with a rejecting and
an acknowledging transport. -/
theorem delete_returns_handle_witness :
    delete ⟨3⟩ (fun _ _ _ => .error (.Msg "EPERM")) =
      .error (⟨3⟩, .Msg "EPERM") ∧
    delete ⟨3⟩ (fun _ _ _ => .ok ()) = .ok () := by
  have h := delete_returns_handle ⟨3⟩ (.Msg "EPERM")
    (fun _ _ _ => .error (.Msg "EPERM")) (fun _ _ _ => .ok ()) rfl rfl
  exact ⟨h.1, h.2.2⟩

/-- `rt::can_bittiming` from `nl.rs`: eight `u32` fields in declared
order (a `repr(C)` struct of homogeneous `u32`s has no padding). -/
structure can_bittiming where
  bitrate : Nat
  sample_point : Nat
  tq : Nat
  prop_seg : Nat
  phase_seg1 : Nat
  phase_seg2 : Nat
  sjw : Nat
  brp : Nat
deriving DecidableEq, Repr

/-- `#[derive(Default)]` for `rt::can_bittiming`: all fields zero. -/
def can_bittiming.default : can_bittiming := ⟨0, 0, 0, 0, 0, 0, 0, 0⟩

/-- The four bytes of a `u32` in memory order on the (little-endian)
Linux targets of this crate. -/
def u32le (x : Nat) : List Nat :=
  [x % 2 ^ 8, x / 2 ^ 8 % 2 ^ 8, x / 2 ^ 16 % 2 ^ 8, x / 2 ^ 24 % 2 ^ 8]

/-- Recover a `u32` from its four in-memory bytes
(`u32::from_ne_bytes` on a little-endian target); other lengths give 0
(unused: the caller checks the length first, as `nl.rs` does). -/
def u32OfNeBytes (bs : List Nat) : Nat :=
  match bs with
  | [a, b, c, d] => a + 2 ^ 8 * b + 2 ^ 16 * c + 2 ^ 24 * d
  | _ => 0

/-- `as_bytes` from `nl.rs` specialized to `rt::can_bittiming`: the raw
memory of the `repr(C)` struct, i.e. the eight `u32` fields in declared
order, four bytes each, no padding. -/
def can_bittiming.as_bytes (t : can_bittiming) : List Nat :=
  u32le t.bitrate ++ u32le t.sample_point ++ u32le t.tq ++ u32le t.prop_seg ++
    u32le t.phase_seg1 ++ u32le t.phase_seg2 ++ u32le t.sjw ++ u32le t.brp

/-- The bit-timing record built by `CanInterface::set_bitrate` for
bitrate 500000 and sample point 750: all other fields default to zero. -/
def bittimingExample : can_bittiming :=
  { can_bittiming.default with bitrate := 500000, sample_point := 750 }

/-- C7: the bit-timing record with bitrate 500000, sample point 750 and
all other fields zero serializes to exactly 32 bytes (8 fields × 4
bytes), with the eight `u32` fields at native width in declared order:
each aligned 4-byte chunk decodes back to the corresponding field. -/
theorem bittiming_layout :
    bittimingExample.as_bytes.length = 32 ∧
    bittimingExample.as_bytes =
      [32, 161, 7, 0, 238, 2, 0, 0] ++ List.replicate 24 0 ∧
    u32OfNeBytes (bittimingExample.as_bytes.take 4) =
      bittimingExample.bitrate ∧
    u32OfNeBytes ((bittimingExample.as_bytes.drop 4).take 4) =
      bittimingExample.sample_point ∧
    u32OfNeBytes ((bittimingExample.as_bytes.drop 8).take 4) =
      bittimingExample.tq ∧
    u32OfNeBytes ((bittimingExample.as_bytes.drop 12).take 4) =
      bittimingExample.prop_seg ∧
    u32OfNeBytes ((bittimingExample.as_bytes.drop 16).take 4) =
      bittimingExample.phase_seg1 ∧
    u32OfNeBytes ((bittimingExample.as_bytes.drop 20).take 4) =
      bittimingExample.phase_seg2 ∧
    u32OfNeBytes ((bittimingExample.as_bytes.drop 24).take 4) =
      bittimingExample.sjw ∧
    u32OfNeBytes ((bittimingExample.as_bytes.drop 28).take 4) =
      bittimingExample.brp := by
  decide

/-- `InterfaceDetails` from `nl.rs`. -/
structure InterfaceDetails where
  name : Option String
  index : Nat
  is_up : Bool
  mtu : Option Mtu
deriving DecidableEq, Repr

/-- `InterfaceDetails::new` from `nl.rs`: the given index, all other
fields default. -/
def InterfaceDetails.new (index : Nat) : InterfaceDetails :=
  { name := none, index := index, is_up := false, mtu := none }

/-- Attribute type of a received route attribute, as decoded by `neli`
(`Ifla`); only `Ifname` and `Mtu` are interpreted by `details`. -/
inductive Ifla where
  | Ifname
  | Mtu
  | Linkinfo
  | ExtMask
  | Other (code : Nat)
deriving DecidableEq, Repr

/-- A received route attribute: its type and raw payload bytes. -/
structure Rtattr where
  rta_type : Ifla
  rta_payload : List Nat
deriving DecidableEq, Repr

/-- `CString::from_vec_with_nul`: succeeds (returning the content without
the nul) iff the byte vector ends in a nul byte and contains no interior
nul. -/
def cStringOfVecWithNul (v : List Nat) : Option (List Nat) :=
  if v.getLast? = some 0 ∧ 0 ∉ v.dropLast then some v.dropLast else none

/-- `CString::into_string`: UTF-8 validation of the content bytes. -/
def intoString (bs : List Nat) : Option String :=
  String.fromUTF8? (ByteArray.mk ((bs.map fun b => UInt8.ofNat b).toArray))

/-- The name decode of `details` in `nl.rs`:
`CString::from_vec_with_nul` followed by `into_string`. -/
def decodeName (v : List Nat) : Option String :=
  match cStringOfVecWithNul v with
  | some content => intoString content
  | none => none

/-- The per-attribute body of the `for attr in payload.rtattrs` loop of
`CanInterface::details`: a decodable name attribute sets `name`, a 4-byte
MTU attribute sets `mtu` to the (possibly failed, hence `none`) decoded
enumeration, everything else leaves the record unchanged. -/
def processAttr (info : InterfaceDetails) (attr : Rtattr) : InterfaceDetails :=
  match attr.rta_type with
  | .Ifname =>
    match decodeName attr.rta_payload with
    | some s => { info with name := some s }
    | none => info
  | .Mtu =>
    if attr.rta_payload.length = 4 then
      { info with mtu := (Mtu.tryFrom (u32OfNeBytes attr.rta_payload)).toOption }
    else info
  | _ => info

/-- The `Ifinfomsg` payload of a received `GETLINK` reply: the interface
flags and the attribute list. -/
structure IfinfoPayload where
  ifi_flags : List IffFlag
  rtattrs : List Rtattr

/-- A received typed netlink message as seen by `details`:
`payload = none` models a message whose payload is not a data payload
(`get_payload()` returns `Err` on an ack or empty payload). -/
structure NlMsgReply where
  payload : Option IfinfoPayload

/-- Outcome of the typed `recv::<Rtm, Ifinfomsg>` call in `details`:
a transport/protocol error (including a netlink-level error reply),
no message, or a message. -/
inductive RecvMsgOutcome where
  | fail (e : NlError)
  | noneMsg
  | someMsg (m : NlMsgReply)

/-- `CanInterface::details` from `nl.rs`, with the receive behaviour of
the socket supplied as an oracle: on no message, `NoAck`; on a message,
always a success record seeded with the queried index, populated from the
payload when one is present. -/
def details (if_index : Nat) (recv : RecvMsgOutcome) :
    Except NlError InterfaceDetails :=
  match recv with
  | .fail e => .error e
  | .noneMsg => .error .NoAck
  | .someMsg m =>
    .ok <|
      match m.payload with
      | none => InterfaceDetails.new if_index
      | some p =>
        p.rtattrs.foldl processAttr
          { InterfaceDetails.new if_index with
              is_up := decide (IffFlag.Up ∈ p.ifi_flags) }

theorem processAttr_index (info : InterfaceDetails) (a : Rtattr) :
    (processAttr info a).index = info.index := by
  rcases a with ⟨ty, pl⟩
  cases ty with
  | Ifname =>
    simp only [processAttr]
    cases decodeName pl <;> rfl
  | Mtu =>
    simp only [processAttr]
    split <;> rfl
  | Linkinfo => rfl
  | ExtMask => rfl
  | Other code => rfl

theorem foldl_processAttr_index (attrs : List Rtattr) :
    ∀ info : InterfaceDetails,
      (attrs.foldl processAttr info).index = info.index := by
  induction attrs with
  | nil => intro info; rfl
  | cons a t ih =>
    intro info
    rw [List.foldl_cons, ih, processAttr_index]

/-- An attribute that `details` cannot interpret: a name attribute whose
payload is not a nul-terminated valid-UTF-8 string, an MTU attribute
whose payload is not exactly 4 bytes or decodes to an unrecognized value,
or an attribute of any other type. -/
def badAttr (a : Rtattr) : Bool :=
  match a.rta_type with
  | .Ifname => (decodeName a.rta_payload).isNone
  | .Mtu =>
    if a.rta_payload.length = 4 then
      (Mtu.tryFrom (u32OfNeBytes a.rta_payload)).toOption.isNone
    else true
  | _ => true

theorem processAttr_badAttr (info : InterfaceDetails) (a : Rtattr)
    (hb : badAttr a = true) (hm : info.mtu = none) :
    processAttr info a = info := by
  obtain ⟨nm, ix, up, mt⟩ := info
  simp only at hm
  subst hm
  rcases a with ⟨ty, pl⟩
  cases ty with
  | Ifname =>
    simp only [badAttr, Option.isNone_iff_eq_none] at hb
    simp only [processAttr, hb]
  | Mtu =>
    simp only [badAttr] at hb
    simp only [processAttr]
    split
    case isTrue hlen =>
      rw [if_pos hlen, Option.isNone_iff_eq_none] at hb
      rw [hb]
    case isFalse hlen => rfl
  | Linkinfo => rfl
  | ExtMask => rfl
  | Other code => rfl

theorem foldl_processAttr_badAttr (attrs : List Rtattr)
    (info : InterfaceDetails) (h : ∀ a ∈ attrs, badAttr a = true)
    (hm : info.mtu = none) :
    attrs.foldl processAttr info = info := by
  induction attrs with
  | nil => rfl
  | cons a t ih =>
    rw [List.foldl_cons,
      processAttr_badAttr info a (h a (List.mem_cons_self _ _)) hm]
    exact ih fun b hb => h b (List.mem_cons_of_mem _ hb)

/-- C8: reply decoding never fails the query because of an individual
attribute: when every attribute of the payload is malformed or
unrecognized (bad name bytes, bad MTU length or value, unknown type),
the returned record has `name` and `mtu` unset and `is_up` determined by
the flags field alone; for every received message whatsoever the query
returns a success record whose index equals the queried index; and when
the flags field is absent (no parseable payload) `is_up` stays false. -/
theorem details_decode_robust (idx : Nat) (p : IfinfoPayload)
    (h : ∀ a ∈ p.rtattrs, badAttr a = true) :
    details idx (.someMsg ⟨some p⟩) =
      .ok { name := none, index := idx,
            is_up := decide (IffFlag.Up ∈ p.ifi_flags), mtu := none } ∧
    (∀ m : NlMsgReply, ∃ d, details idx (.someMsg m) = .ok d ∧
      d.index = idx) ∧
    details idx (.someMsg ⟨none⟩) = .ok (InterfaceDetails.new idx) ∧
    (InterfaceDetails.new idx).is_up = false := by
  refine ⟨?_, ?_, rfl, rfl⟩
  · simp only [details]
    rw [foldl_processAttr_badAttr p.rtattrs _ h rfl]
    rfl
  · intro m
    rcases m with ⟨pl⟩
    cases pl with
    | none => exact ⟨_, rfl, rfl⟩
    | some q =>
      exact ⟨_, rfl, (foldl_processAttr_index q.rtattrs _).trans rfl⟩

/-- Witness for `details_decode_robust`: a payload whose name attribute
is not nul-terminated, whose MTU attributes carry an unrecognized value
and a wrong length, plus an unknown attribute type. -/
theorem details_decode_robust_witness :
    details 9 (.someMsg ⟨some ⟨[IffFlag.Up],
        [⟨.Ifname, [65, 0, 66]⟩, ⟨.Mtu, [1, 0, 0, 0]⟩, ⟨.Mtu, [1, 2]⟩,
         ⟨.Other 99, [7]⟩]⟩⟩) =
      .ok { name := none, index := 9, is_up := true, mtu := none } ∧
    (∃ d, details 9 (.someMsg ⟨some ⟨[], [⟨.Ifname, [104, 105, 0]⟩]⟩⟩) =
      .ok d ∧ d.index = 9) := by
  have h := details_decode_robust 9
    ⟨[IffFlag.Up],
      [⟨.Ifname, [65, 0, 66]⟩, ⟨.Mtu, [1, 0, 0, 0]⟩, ⟨.Mtu, [1, 2]⟩,
       ⟨.Other 99, [7]⟩]⟩ (by decide)
  exact ⟨h.1.trans (congrArg Except.ok (by decide)),
    h.2.1 ⟨some ⟨[], [⟨.Ifname, [104, 105, 0]⟩]⟩⟩⟩

/-- Counterexample to C3 as stated: a reply message that carries no data
payload (the kernel sent an ack where data was expected) makes `details`
return a success record with default fields — not the `NoAck` error the
claim requires. -/
theorem details_no_payload_counterexample :
    details 3 (.someMsg ⟨none⟩) = .ok (InterfaceDetails.new 3) ∧
    ∀ e : NlError, details 3 (.someMsg ⟨none⟩) ≠ .error e :=
  ⟨rfl, fun _ h => Except.noConfusion h⟩

/-- C3 amended: a reply message without a data payload yields a success
record seeded only with the queried index; the `NoAck` condition arises
exactly when no reply message is received, and a transport/protocol error
(including a netlink-level error reply) propagates unchanged. -/
theorem details_reply_without_payload (idx : Nat) (m : NlMsgReply)
    (h : m.payload = none) :
    details idx (.someMsg m) = .ok (InterfaceDetails.new idx) ∧
    details idx .noneMsg = .error .NoAck ∧
    (∀ e : NlError, details idx (.fail e) = .error e) := by
  rcases m with ⟨pl⟩
  simp only at h
  subst h
  exact ⟨rfl, rfl, fun _ => rfl⟩

/-- Witness for `details_reply_without_payload` at index 3. -/
theorem details_reply_without_payload_witness :
    details 3 (.someMsg ⟨none⟩) = .ok (InterfaceDetails.new 3) ∧
    details 3 .noneMsg = .error .NoAck :=
  ⟨(details_reply_without_payload 3 ⟨none⟩ rfl).1,
   (details_reply_without_payload 3 ⟨none⟩ rfl).2.1⟩

end SocketCan
